import Mathlib

/-!
Shallow embedding of the benchmark engine of `src/index.js` (the `bench`
command action, lines 180–282).  Latencies and durations are modelled as
rationals (JS numbers restricted to the exact arithmetic the claims need);
the mutable per-run variables (`count`, `resCount`, `errorCount`, `sumTime`,
`minTime`, `maxTime`, `timeout`) become a state record, and the
callback-driven request loop becomes a recursive function over the list of
call outcomes supplied by the (mocked) remote capability.
-/

/-- The result of one remote call attempt, as observed by `handleResponse`:
the measured wall-clock latency, whether the call failed (the `err`
argument was truthy), and the value of the advisory `timeout` flag at the
moment this completion is handled (the flag is set at most once by the
`setTimeout` timer and never cleared, so it is monotone along a run). -/
structure Outcome where
  latency : ℚ
  failed : Bool
  timeoutSeen : Bool
deriving Repr, DecidableEq

/-- The mutable state of one benchmark run (`src/index.js` lines 203–210):
`count` counts issued requests (incremented in `doRequest`), `resCount`
counts completions, and the remaining fields are the running statistics
plus the advisory `timeout` flag (line 210). -/
structure BenchState where
  count : ℕ
  resCount : ℕ
  errorCount : ℕ
  sumTime : ℚ
  minTime : Option ℚ
  maxTime : Option ℚ
  timeout : Bool
deriving Repr, DecidableEq

/-- The fresh state at run start: all counters zero, `minTime`/`maxTime`
unset (`undefined`), `timeout = false` (lines 203–210). -/
def initState : BenchState :=
  { count := 0, resCount := 0, errorCount := 0, sumTime := 0,
    minTime := none, maxTime := none, timeout := false }

/-- `doRequest` (line 264): increment the issued-request counter before the
call is made. -/
def issue (s : BenchState) : BenchState :=
  { s with count := s.count + 1 }

/-- The statistics update performed at the top of `handleResponse`
(lines 229–241): `resCount++`; `errorCount++` when `err` is truthy;
`sumTime += duration`; `minTime`/`maxTime` updated with the source's
null-check-and-compare; the `timeout` flag as observed at this completion
(monotone, so OR-ed with the previous observation). -/
def handleStats (s : BenchState) (o : Outcome) : BenchState :=
  { s with
    resCount := s.resCount + 1,
    errorCount := if o.failed then s.errorCount + 1 else s.errorCount,
    sumTime := s.sumTime + o.latency,
    minTime := some (match s.minTime with
      | none => o.latency
      | some m => if o.latency < m then o.latency else m),
    maxTime := some (match s.maxTime with
      | none => o.latency
      | some m => if o.latency > m then o.latency else m),
    timeout := s.timeout || o.timeoutSeen }

/-- The termination condition of line 243:
`timeout || (iterate && resCount >= iterate)`.  `iterate` is
`Number(args.options.num)` or `null`; in the guard JS truthiness makes both
`null` and `0` fall through to "no count bound", hence the `0 < n`
conjunct. -/
def shouldStop (iterate : Option ℕ) (s : BenchState) : Bool :=
  s.timeout || (match iterate with
    | none => false
    | some n => decide (0 < n) && decide (n ≤ s.resCount))

/-- The fast/slow-cycle test of line 253: `if (count % 10 * 1000)`.
JS gives `%` and `*` equal precedence, left-associative, so the condition
is `(count % 10) * 1000`; the truthy case calls `doRequest()` directly
(fast cycle) and the falsy case defers through `setImmediate` (slow
cycle).  This function is `true` exactly when the continuation is
deferred.  Lean's `%` and `*` share the same precedence and associativity,
so the expression below is the source's expression verbatim. -/
def deferContinuation (count : ℕ) : Bool :=
  decide (count % 10 * 1000 = 0)

/-- The benchmark loop: `doRequest` issues one call (incrementing `count`),
its outcome is recorded by `handleResponse`, the termination check of line
243 runs, and on "continue" the next call is issued (synchronously or via
`setImmediate`; either way the same loop body runs next, so the deferral
does not affect state evolution).  The list is the deterministic sequence
of outcomes produced by the mocked remote capability; the loop also stops
if the mock sequence is exhausted. -/
def runBench (iterate : Option ℕ) (s : BenchState) : List Outcome → BenchState
  | [] => s
  | o :: rest =>
    let s1 := handleStats (issue s) o
    if shouldStop iterate s1 then s1 else runBench iterate s1 rest

/-- The report assembled by `printResult` (lines 215–226): requests/sec is
`resCount / duration * 1000` (line 220) and the average latency is
`sumTime / resCount` (line 222), both computed unconditionally — there is
no guard for `resCount = 0` (in JS `0/0` is `NaN`; in this ℚ model
division by zero yields the junk value `0`). -/
structure Report where
  resCount : ℕ
  errorCount : ℕ
  reqPerSec : ℚ
  avgLatency : ℚ
  minLatency : Option ℚ
  maxLatency : Option ℚ
deriving Repr, DecidableEq

/-- `printResult` (lines 215–226) as a pure function of the final state and
the measured total duration. -/
def printResultModel (s : BenchState) (duration : ℚ) : Report :=
  { resCount := s.resCount,
    errorCount := s.errorCount,
    reqPerSec := s.resCount / duration * 1000,
    avgLatency := s.sumTime / s.resCount,
    minLatency := s.minTime,
    maxLatency := s.maxTime }

/-- Lines 188–191: `iterate`/`time` are the numeric option values or
`null`; if both are falsy (`null` or `0`), `time` is set to 5 seconds. -/
def resolvedTime (num timeOpt : Option ℚ) : Option ℚ :=
  if num.getD 0 = 0 ∧ timeOpt.getD 0 = 0 then some 5 else timeOpt

/-- Line 212: `setTimeout(() => timeout = true, (time ? time : 60) * 1000)`
— the advisory timer is armed for `time` seconds when `time` is truthy,
else for 60 seconds. -/
def timerMs (num timeOpt : Option ℚ) : ℚ :=
  (match resolvedTime num timeOpt with
    | none => 60
    | some t => if t = 0 then 60 else t) * 1000

/-- The running-statistics invariant: `errorCount ≤ resCount`; before any
completion the min/max are unset and the sum is zero; once a completion
exists, min/max are set and bound the sum from below/above when multiplied
by the completion count. -/
def StatsInv (s : BenchState) : Prop :=
  s.errorCount ≤ s.resCount ∧
  (s.resCount = 0 → s.minTime = none ∧ s.maxTime = none ∧ s.sumTime = 0) ∧
  (0 < s.resCount → ∃ m M, s.minTime = some m ∧ s.maxTime = some M ∧
    m * (s.resCount : ℚ) ≤ s.sumTime ∧ s.sumTime ≤ M * (s.resCount : ℚ))

/-- C2: each recorded outcome updates the statistics exactly as specified:
completions up by one, error count up by one iff the outcome failed, the
latency always added to the sum (errors included), and min/max becoming
the latency when previously unset, else the min/max of old value and
latency. -/
theorem handleStats_exact (s : BenchState) (o : Outcome) :
    (handleStats s o).resCount = s.resCount + 1 ∧
    (handleStats s o).errorCount = s.errorCount + (if o.failed then 1 else 0) ∧
    (handleStats s o).sumTime = s.sumTime + o.latency ∧
    (handleStats s o).minTime = some (min (s.minTime.getD o.latency) o.latency) ∧
    (handleStats s o).maxTime = some (max (s.maxTime.getD o.latency) o.latency) := by
  refine ⟨rfl, ?_, rfl, ?_, ?_⟩
  · cases h : o.failed <;> simp [handleStats, h]
  · cases h : s.minTime with
    | none => simp [handleStats, h]
    | some m =>
      simp only [handleStats, h, Option.getD_some, Option.some.injEq]
      rcases lt_or_le o.latency m with hlt | hle
      · rw [if_pos hlt, min_eq_right hlt.le]
      · rw [if_neg (not_lt.mpr hle), min_eq_left hle]
  · cases h : s.maxTime with
    | none => simp [handleStats, h]
    | some m =>
      simp only [handleStats, h, Option.getD_some, Option.some.injEq]
      rcases lt_or_le m o.latency with hlt | hle
      · rw [if_pos hlt, max_eq_right hlt.le]
      · rw [if_neg (not_lt.mpr hle), max_eq_left hle]

/-- C3 counterexample: at iteration counter 10 the source's condition
`count % 10 * 1000` evaluates to `(10 % 10) * 1000 = 0`, so the
continuation IS deferred, although 10 is not a multiple of 10 000 — the
claimed "deferred iff the counter is a multiple of 10 000" is false. -/
theorem deferContinuation_at_ten :
    deferContinuation 10 = true ∧ ¬ (10 % 10000 = 0) := by decide

/-- C3 amended: due to operator precedence the condition is
`(count % 10) * 1000`, so the continuation is deferred exactly when the
iteration counter is a multiple of 10 — roughly every 10th iteration, not
every 10 000th. -/
theorem deferContinuation_iff_mod_ten (n : ℕ) :
    deferContinuation n = true ↔ n % 10 = 0 := by
  simp [deferContinuation]

/-- C7: with neither a request-count bound nor a duration bound given, the
advisory timer is armed at 5000 ms (the 5-second default of lines 190–191
and 212), and the termination check then reduces to the `timeout` flag
alone, so only this timer ends the run. -/
theorem default_duration_five_seconds :
    timerMs none none = 5000 ∧ ∀ s : BenchState, shouldStop none s = s.timeout := by
  constructor
  · norm_num [timerMs, resolvedTime]
  · intro s
    simp [shouldStop]

/-- Helper: the completion counter never decreases along the run loop. -/
theorem runBench_resCount_le (iterate : Option ℕ) (outs : List Outcome) :
    ∀ s : BenchState, s.resCount ≤ (runBench iterate s outs).resCount := by
  induction outs with
  | nil =>
    intro s
    exact le_refl _
  | cons o rest ih =>
    intro s
    simp only [runBench]
    split
    · exact Nat.le_succ _
    · exact le_trans (Nat.le_succ s.resCount) (ih (handleStats (issue s) o))

/-- C1: the termination check of line 243 is the exact disjunction
`timeout || (maxRequests set && resCount ≥ maxRequests)`; with no count
bound it reduces to the `timeout` flag alone (so only the duration timer
ends the run); the check runs on the state produced by recording a
completion; and a run over a non-empty outcome sequence always records at
least one completion before stopping (no check precedes the first
request, issued unconditionally at line 281). -/
theorem bench_termination_policy :
    (∀ s : BenchState, shouldStop none s = s.timeout) ∧
    (∀ (n : ℕ) (s : BenchState), 0 < n →
      shouldStop (some n) s = (s.timeout || decide (n ≤ s.resCount))) ∧
    (∀ (iterate : Option ℕ) (s : BenchState) (o : Outcome) (rest : List Outcome),
      runBench iterate s (o :: rest) =
        if shouldStop iterate (handleStats (issue s) o)
        then handleStats (issue s) o
        else runBench iterate (handleStats (issue s) o) rest) ∧
    (∀ (iterate : Option ℕ) (s : BenchState) (o : Outcome) (rest : List Outcome),
      s.resCount + 1 ≤ (runBench iterate s (o :: rest)).resCount) := by
  refine ⟨?_, ?_, ?_, ?_⟩
  · intro s
    simp [shouldStop]
  · intro n s hn
    have h : decide (0 < n) = true := decide_eq_true hn
    simp [shouldStop, h]
  · intro it s o rest
    rfl
  · intro it s o rest
    simp only [runBench]
    split
    · exact le_refl _
    · exact runBench_resCount_le it rest (handleStats (issue s) o)

/-- C1 witness: the termination formula instantiated at a concrete positive
bound. -/
theorem bench_termination_policy_witness :
    shouldStop (some 3) initState
      = (initState.timeout || decide (3 ≤ initState.resCount)) :=
  bench_termination_policy.2.1 3 initState (by decide)

/-- C6: a failed call is recorded exactly like a successful one of the same
latency except that `errorCount` is one larger (so its latency enters the
aggregate); the continue-or-stop decision is identical for the two, so a
failure never ends the run early; and the loop consumes each mocked
outcome at most once (no retry can inflate the completion count beyond
the number of attempts). -/
theorem failure_recorded_and_nonfatal :
    (∀ (s : BenchState) (d : ℚ) (tf : Bool),
      handleStats s ⟨d, true, tf⟩ =
        { handleStats s ⟨d, false, tf⟩ with errorCount := s.errorCount + 1 }) ∧
    (∀ (iterate : Option ℕ) (s : BenchState) (d : ℚ) (tf : Bool),
      shouldStop iterate (handleStats s ⟨d, true, tf⟩) =
        shouldStop iterate (handleStats s ⟨d, false, tf⟩)) ∧
    (∀ (iterate : Option ℕ) (outs : List Outcome) (s : BenchState),
      (runBench iterate s outs).resCount ≤ s.resCount + outs.length) := by
  refine ⟨?_, ?_, ?_⟩
  · intro s d tf
    rfl
  · intro it s d tf
    rfl
  · intro it outs
    induction outs with
    | nil =>
      intro s
      simp [runBench]
    | cons o rest ih =>
      intro s
      simp only [runBench, List.length_cons]
      split
      · show s.resCount + 1 ≤ s.resCount + (rest.length + 1)
        omega
      · calc (runBench it (handleStats (issue s) o) rest).resCount
            ≤ (handleStats (issue s) o).resCount + rest.length := ih _
          _ = s.resCount + 1 + rest.length := rfl
          _ ≤ s.resCount + (rest.length + 1) := by omega

/-- C8: the run is a pure function of the termination policy and the mocked
outcome sequence, so two fresh runs over the same deterministic sequence
produce identical reports. -/
theorem bench_deterministic (iterate : Option ℕ) (outs : List Outcome)
    (duration : ℚ) (s1 s2 : BenchState)
    (h1 : s1 = initState) (h2 : s2 = initState) :
    printResultModel (runBench iterate s1 outs) duration =
      printResultModel (runBench iterate s2 outs) duration := by
  rw [h1, h2]

/-- C8 witness: two fresh runs over the empty sequence. -/
theorem bench_deterministic_witness :
    printResultModel (runBench none initState []) 1 =
      printResultModel (runBench none initState []) 1 :=
  bench_deterministic none [] 1 initState initState rfl rfl

/-- Helper: the fresh state satisfies the statistics invariant. -/
theorem StatsInv_init : StatsInv initState := by
  refine ⟨Nat.le_refl 0, fun _ => ⟨rfl, rfl, rfl⟩, fun h => ?_⟩
  simp [initState] at h

/-- Helper: one statistics update preserves the invariant. -/
theorem StatsInv_step (s : BenchState) (o : Outcome) (h : StatsInv s) :
    StatsInv (handleStats s o) := by
  obtain ⟨he, h0, hpos⟩ := h
  refine ⟨?_, ?_, ?_⟩
  · cases hf : o.failed <;> simp [handleStats, hf] <;> omega
  · intro hcon
    simp [handleStats] at hcon
  · intro _
    simp only [handleStats]
    by_cases hc : s.resCount = 0
    · obtain ⟨hmin, hmax, hsum⟩ := h0 hc
      refine ⟨o.latency, o.latency, ?_, ?_, ?_, ?_⟩
      · simp [hmin]
      · simp [hmax]
      · simp [hc, hsum]
      · simp [hc, hsum]
    · have hcpos : 0 < s.resCount := Nat.pos_of_ne_zero hc
      obtain ⟨m, M, hm, hM, hlo, hhi⟩ := hpos hcpos
      have hcq : (0 : ℚ) ≤ (s.resCount : ℚ) := by positivity
      refine ⟨if o.latency < m then o.latency else m,
              if o.latency > M then o.latency else M, ?_, ?_, ?_, ?_⟩
      · simp [hm]
      · simp [hM]
      · have h1 : (if o.latency < m then o.latency else m) ≤ m := by
          by_cases hx : o.latency < m
          · rw [if_pos hx]
            exact hx.le
          · rw [if_neg hx]
        have h2 : (if o.latency < m then o.latency else m) ≤ o.latency := by
          by_cases hx : o.latency < m
          · rw [if_pos hx]
          · rw [if_neg hx]
            exact le_of_not_lt hx
        push_cast
        nlinarith [mul_le_mul_of_nonneg_right h1 hcq]
      · have h1 : M ≤ (if o.latency > M then o.latency else M) := by
          by_cases hx : o.latency > M
          · rw [if_pos hx]
            exact hx.le
          · rw [if_neg hx]
        have h2 : o.latency ≤ (if o.latency > M then o.latency else M) := by
          by_cases hx : o.latency > M
          · rw [if_pos hx]
          · rw [if_neg hx]
            exact le_of_not_lt hx
        push_cast
        nlinarith [mul_le_mul_of_nonneg_right h1 hcq]

/-- Helper: the whole run loop preserves the invariant. -/
theorem StatsInv_runBench (iterate : Option ℕ) (outs : List Outcome) :
    ∀ s : BenchState, StatsInv s → StatsInv (runBench iterate s outs) := by
  induction outs with
  | nil =>
    intro s hs
    exact hs
  | cons o rest ih =>
    intro s hs
    have hs1 : StatsInv (handleStats (issue s) o) :=
      StatsInv_step (issue s) o ⟨hs.1, hs.2.1, hs.2.2⟩
    simp only [runBench]
    split
    · exact hs1
    · exact ih _ hs1

/-- C4: the invariant `errorCount ≤ resCount` (with both ≥ 0 by type)
holds initially, is preserved by every per-completion statistics update
and by every whole run, and whenever `resCount > 0` the min/max bracket
the mean `sumTime / resCount`. -/
theorem stats_invariants :
    StatsInv initState ∧
    (∀ (s : BenchState) (o : Outcome), StatsInv s → StatsInv (handleStats s o)) ∧
    (∀ (iterate : Option ℕ) (outs : List Outcome) (s : BenchState),
      StatsInv s → StatsInv (runBench iterate s outs)) ∧
    (∀ s : BenchState, StatsInv s → 0 < s.resCount →
      s.errorCount ≤ s.resCount ∧
      ∃ m M, s.minTime = some m ∧ s.maxTime = some M ∧
        m ≤ s.sumTime / (s.resCount : ℚ) ∧ s.sumTime / (s.resCount : ℚ) ≤ M) := by
  refine ⟨StatsInv_init, StatsInv_step, fun it outs s hs => StatsInv_runBench it outs s hs, ?_⟩
  intro s hInv hc
  obtain ⟨he, h0, hpos⟩ := hInv
  obtain ⟨m, M, hm, hM, hlo, hhi⟩ := hpos hc
  have hcq : (0 : ℚ) < (s.resCount : ℚ) := by exact_mod_cast hc
  exact ⟨he, m, M, hm, hM, (le_div_iff₀ hcq).mpr hlo, (div_le_iff₀ hcq).mpr hhi⟩

/-- C4 witness: the invariant instantiated after one concrete update of the
fresh state. -/
theorem stats_invariants_witness :
    StatsInv (handleStats initState ⟨10, false, false⟩) :=
  stats_invariants.2.1 initState ⟨10, false, false⟩ StatsInv_init

/-- The mocked outcome sequence of the concrete scenario: success(10 ms),
fail(20 ms), success(10 ms), success(10 ms), fail(30 ms), followed by a
sentinel outcome that must never be consumed because the run stops at the
fifth completion. -/
def scenarioOutcomes : List Outcome :=
  [⟨10, false, false⟩, ⟨20, true, false⟩, ⟨10, false, false⟩,
   ⟨10, false, false⟩, ⟨30, true, false⟩, ⟨999, false, false⟩]

/-- C5: with `maxRequests = 5` and the mocked sequence success(10),
fail(20), success(10), success(10), fail(30), the run stops at the fifth
completion (the sentinel sixth outcome is not consumed) and reports
count = 5, errorCount = 2, min = 10 ms, max = 30 ms, avg = 16 ms. -/
theorem bench_scenario_five :
    (runBench (some 5) initState scenarioOutcomes).resCount = 5 ∧
    (runBench (some 5) initState scenarioOutcomes).errorCount = 2 ∧
    (runBench (some 5) initState scenarioOutcomes).minTime = some 10 ∧
    (runBench (some 5) initState scenarioOutcomes).maxTime = some 30 ∧
    (printResultModel (runBench (some 5) initState scenarioOutcomes) 1000).avgLatency = 16 := by
  norm_num [scenarioOutcomes, runBench, handleStats, issue, shouldStop, initState,
    printResultModel]

/-- C9: `printResult` guards nothing at `resCount = 0`: the average is the
unconditional division `sumTime / resCount` (line 222) and requests/sec is
`resCount / duration * 1000` (line 220), so at a zero-completion state the
division by zero is performed silently (`NaN` in JS; the junk value `0` in
this ℚ model) — the report carries no explicit representation of the
degenerate case.  (Within the engine this state is unreachable at
termination: the check of line 243 runs only after a completion.) -/
theorem report_zero_count_unguarded :
    ({ initState with timeout := true } : BenchState).resCount = 0 ∧
    (printResultModel { initState with timeout := true } 1000).avgLatency = 0 ∧
    (printResultModel { initState with timeout := true } 1000).reqPerSec = 0 := by
  refine ⟨rfl, ?_, ?_⟩ <;> norm_num [printResultModel, initState]

/-- C10: with a request-count bound and no duration bound, `time` stays
`null`, so line 212 arms the advisory timer at `60 * 1000 = 60000` ms; once
the flag is set, the termination check stops the run at the next completion
whatever the completion count. -/
theorem count_bound_timer_sixty_seconds (n : ℕ) (hn : 0 < n) :
    timerMs (some (n : ℚ)) none = 60000 ∧
    ∀ s : BenchState, s.timeout = true → shouldStop (some n) s = true := by
  constructor
  · have hne : ((n : ℚ)) ≠ 0 := Nat.cast_ne_zero.mpr (Nat.pos_iff_ne_zero.mp hn)
    norm_num [timerMs, resolvedTime, hne]
  · intro s hs
    simp [shouldStop, hs]

/-- C10 witness: the 60-second timer and flag-driven stop at the concrete
bound 5. -/
theorem count_bound_timer_sixty_seconds_witness :
    timerMs (some ((5 : ℕ) : ℚ)) none = 60000 ∧
    shouldStop (some 5) { initState with timeout := true } = true :=
  ⟨(count_bound_timer_sixty_seconds 5 (by decide)).1,
   (count_bound_timer_sixty_seconds 5 (by decide)).2 _ rfl⟩
